import Mathlib

/-!
Verification of the documentation harvesting engine of a docs.rs MCP server.

The development shallowly embeds the two HTML-scraping tools of the
repository:

* `StructDocsTool` (src/docs-rs-mcp/src/tools/get_struct_docs.rs):
  URL resolution for a struct documentation page (`find_struct_url`) and
  extraction of a structured record from the page (`fetch_docs`).
* `CrateItemsTool` (src/docs-rs-mcp/src/tools/crate_items.rs):
  categorized listing of the items published on the all-items page
  (`scrape_items`).

HTML documents are embedded by the results of the fixed CSS selectors the
code runs on them: an all-items page is the list of anchors matched by each
of the two selector strategies, a type page is the collection of nodes
matched by the description / method / trait / field selectors.  An anchor
carries its visible text and its href attribute (the empty string when the
attribute is absent, mirroring `unwrap_or_default`).  Fetching is a
capability `url -> Except err document`, mirroring the `HtmlFetcher` trait
plus `Html::parse_document`.

Rust strings are embedded as Lean `String`; the string operations the code
uses (`split("::")`, `split('/')`, `contains`, `starts_with`, `rfind`,
`trim`, `trim_start_matches`, `join`, `replace`) are defined below by
structural recursion over the character list so that every theorem witness
can be evaluated by the kernel.  The byte indices produced by `rfind` and
consumed by slicing are modelled as character indices; the two agree on
every position at which the code slices (positions of the ASCII character
the code searched for).
-/

namespace DocsRsMcp

/-! ## String operations used by the source -/

/-- Rust `s.split("::")`: leftmost, non-overlapping scan; always yields at
least one (possibly empty) piece. -/
def splitSegsAux (acc : List Char) : List Char → List String
  | [] => [String.mk acc.reverse]
  | ':' :: ':' :: rest => String.mk acc.reverse :: splitSegsAux [] rest
  | c :: rest => splitSegsAux (c :: acc) rest

def splitSegs (s : String) : List String :=
  splitSegsAux [] s.data

/-- Rust `s.split(sep)` for a single character separator. -/
def splitCharAux (sep : Char) (acc : List Char) : List Char → List String
  | [] => [String.mk acc.reverse]
  | c :: rest =>
    if c = sep then String.mk acc.reverse :: splitCharAux sep [] rest
    else splitCharAux sep (c :: acc) rest

def splitChar (sep : Char) (s : String) : List String :=
  splitCharAux sep [] s.data

/-- Rust `pieces.join(sep)`. -/
def joinSep (sep : String) : List String → String
  | [] => ""
  | [s] => s
  | s :: rest => s ++ sep ++ joinSep sep rest

/-- Whether `pat` is a leading segment of `l`. -/
def listStarts : List Char → List Char → Bool
  | [], _ => true
  | _ :: _, [] => false
  | p :: ps, c :: cs => p == c && listStarts ps cs

/-- Whether `pat` occurs contiguously inside `l` (Rust `str::contains`). -/
def listHasSub (pat : List Char) : List Char → Bool
  | [] => listStarts pat []
  | c :: cs => listStarts pat (c :: cs) || listHasSub pat cs

/-- Rust `s.starts_with(pat)`. -/
def strStarts (s pat : String) : Bool := listStarts pat.data s.data

/-- Rust `s.contains(pat)`. -/
def hasSubstr (s pat : String) : Bool := listHasSub pat.data s.data

/-- Rust `s.ends_with(pat)`. -/
def strEnds (s pat : String) : Bool := listStarts pat.data.reverse s.data.reverse

/-- Index (in characters) of the last occurrence of `c`, Rust `s.rfind(c)`. -/
def lastIdxOf (c : Char) : List Char → Option Nat
  | [] => none
  | x :: xs =>
    match lastIdxOf c xs with
    | some i => some (i + 1)
    | none => if x == c then some 0 else none

/-- Rust `s.trim()`. -/
def rustTrim (s : String) : String :=
  String.mk (((s.data.dropWhile Char.isWhitespace).reverse.dropWhile Char.isWhitespace).reverse)

/-- Rust `s.trim_start_matches('/')`. -/
def dropLeadSlashes (s : String) : String :=
  String.mk (s.data.dropWhile (fun c => c == '/'))

/-- Rust `module_path.replace("::", "/")` (replace = split + join). -/
def modSlashes (module_path : String) : String :=
  joinSep "/" (splitSegs module_path)

/-! ## Data model

An `Anchor` is what the code reads off one `<a>` element: its collected
text and its href attribute (`unwrap_or_default` gives `""` when absent).
A `Document` is the selector view of one parsed HTML page: which nodes each
fixed selector of get_struct_docs.rs matches, in document order.  The same
page type serves for the all-items page (anchor lists of the two layout
strategies) and for a type page (description, method, trait and field
nodes); selectors that match nothing yield empty lists or `none`. -/

structure Anchor where
  text : String
  href : String
deriving DecidableEq, Repr

/-- One node matched by `.impl-items .toggle.method-toggle`; each field is
the text of the first match of the corresponding sub-selector, `none` when
the sub-selector matches nothing. -/
structure MethodNode where
  fnName : Option String
  codeHeader : Option String
  docblock : Option String
deriving DecidableEq, Repr

/-- One node matched by `.structfield`, with its sub-selector results. -/
structure FieldNode where
  fieldName : Option String
  fieldType : Option String
  docblock : Option String
deriving DecidableEq, Repr

structure Document where
  /-- anchors matched by `h3#structs + ul.all-items > li > a` -/
  oldAnchors : List Anchor
  /-- anchors matched by `div[id='structs'] > div.item-table > div.item-row > a` -/
  newAnchors : List Anchor
  /-- text of the first `.toggle.top-doc .docblock` match -/
  topDoc : Option String
  /-- nodes matched by `.impl-items .toggle.method-toggle` -/
  methods : List MethodNode
  /-- per `#trait-implementations .impl` section, the text of its first
  `h3 .trait` match -/
  traitImpls : List (Option String)
  /-- per `#synthetic-implementations .impl` section, same sub-selector -/
  syntheticImpls : List (Option String)
  /-- per `#blanket-implementations .impl` section, same sub-selector -/
  blanketImpls : List (Option String)
  /-- nodes matched by `.structfield` -/
  fields : List FieldNode
deriving DecidableEq, Repr

/-- `HtmlFetcher::fetch_html` composed with `Html::parse_document`. -/
abbrev Fetcher := String → Except String Document

/-- Output record `StructDocs` of get_struct_docs.rs. -/
structure MethodDoc where
  name : String
  signature : String
  description : String
deriving DecidableEq, Repr

structure FieldDoc where
  name : String
  type_name : String
  description : String
deriving DecidableEq, Repr

structure StructDocs where
  name : String
  crate_name : String
  description : String
  methods : List MethodDoc
  traits : List String
  fields : List FieldDoc
deriving DecidableEq, Repr

/-! ## StructDocsTool: URL resolution (`find_struct_url`) -/

/-- The versioned base URL the code formats as
`"{}/{}/{}/{}"` from the docs.rs root, crate name, version and crate name
(get_struct_docs.rs line 245 and, inlined, line 172). -/
def versionedBase (docs_rs_url crate_name ver : String) : String :=
  docs_rs_url ++ "/" ++ crate_name ++ "/" ++ ver ++ "/" ++ crate_name

/-- The all-items URL `"{}/{}/{}/{}/all.html"` (line 172). -/
def allItemsUrl (docs_rs_url crate_name ver : String) : String :=
  docs_rs_url ++ "/" ++ crate_name ++ "/" ++ ver ++ "/" ++ crate_name ++ "/all.html"

/-- Module path of the request: everything before the final `::` segment,
`join`ed back with `::` (lines 195-199). -/
def modulePathOf (struct_name : String) : String :=
  joinSep "::" ((splitSegs struct_name).take ((splitSegs struct_name).length - 1))

/-- The matching predicate of the `find` closure (lines 227-242): name
match (bare, full, or module-path + bare) and a `struct` marker in the
href. -/
def anchorMatches (struct_name bare module_path : String) (a : Anchor) : Bool :=
  (if module_path = "" then a.text == bare
   else a.text == struct_name || a.text == module_path ++ "::" ++ bare)
  && hasSubstr a.href "struct"

/-- The `for selector in &selectors` loop (line 206): the first strategy
whose matched anchors contain a request match wins; later strategies are
consulted only if the earlier ones yielded no match. -/
def tryStrategies (p : Anchor → Bool) : List (List Anchor) → Option Anchor
  | [] => none
  | anchors :: rest =>
    match anchors.find? p with
    | some a => some a
    | none => tryStrategies p rest

/-- The module-path splice (lines 263-270): insert the module path (with
`::` turned into `/`) before the final path segment, splitting at
`rfind('/')` with `unwrap_or(0)`. -/
def spliceModulePath (module_path href : String) : String :=
  let last_slash := (lastIdxOf '/' href.data).getD 0
  String.mk (href.data.take last_slash) ++ "/" ++ modSlashes module_path ++ "/"
    ++ String.mk (href.data.drop (last_slash + 1))

/-- URL construction from a matched href (lines 245-274): absolute hrefs
pass through; otherwise the module path is spliced in when requested and
not already contained in a path segment, and the result is appended to the
versioned base URL. -/
def buildUrl (docs_rs_url crate_name ver module_path href : String) : String :=
  if strStarts href "http" then href
  else
    let path_parts := splitChar '/' href
    let final_path :=
      if module_path ≠ "" ∧ (path_parts.any fun p => hasSubstr p module_path) = false then
        spliceModulePath module_path href
      else href
    versionedBase docs_rs_url crate_name ver ++ final_path

/-- The resolution logic run on the fetched all-items document
(lines 182-288): split the request, try the two strategies, build the URL,
or fail. -/
def resolve_in_doc (docs_rs_url crate_name struct_name ver : String)
    (doc : Document) : Except String String :=
  match (splitSegs struct_name).getLast? with
  | none => .error "Invalid struct name: no parts found"
  | some bare =>
    match tryStrategies (anchorMatches struct_name bare (modulePathOf struct_name))
        [doc.oldAnchors, doc.newAnchors] with
    | some a => .ok (buildUrl docs_rs_url crate_name ver (modulePathOf struct_name) a.href)
    | none =>
      .error ("Could not find struct " ++ struct_name ++ " in crate " ++ crate_name)

/-- `StructDocsTool::find_struct_url` (lines 165-288); `docs_rs_url` is the
value of `get_docs_rs_url()`. -/
def find_struct_url (docs_rs_url : String) (fetch : Fetcher)
    (crate_name struct_name : String) (version : Option String) : Except String String :=
  let ver := version.getD "latest"
  match fetch (allItemsUrl docs_rs_url crate_name ver) with
  | .error e => .error e
  | .ok doc => resolve_in_doc docs_rs_url crate_name struct_name ver doc

/-! ## StructDocsTool: extraction (`fetch_docs`) -/

/-- One trait tier (lines 375-382 and the two analogous loops): collect the
heading text of each implementation section that has one, skipping empty
names. -/
def collectTraitNames (sections : List (Option String)) : List String :=
  sections.foldl
    (fun acc s =>
      match s with
      | some t => if t = "" then acc else acc ++ [t]
      | none => acc)
    []

/-- The three-tier trait extraction (lines 365-412): explicit trait
implementations, then synthetic, then blanket, each tier tried only while
`traits` is still empty. -/
def extractTraits (doc : Document) : List String :=
  let traits := collectTraitNames doc.traitImpls
  let traits := if traits.isEmpty then traits ++ collectTraitNames doc.syntheticImpls else traits
  let traits := if traits.isEmpty then traits ++ collectTraitNames doc.blanketImpls else traits
  traits

/-- The pure extraction part of `StructDocsTool::fetch_docs`
(lines 309-459) applied to the fetched type page.  Every sub-selector miss
defaults to the empty string (`unwrap_or_default`); description and method
fields are additionally trimmed, field records are not. -/
def extract_docs (struct_name crate_name : String) (doc : Document) : StructDocs where
  name := struct_name
  crate_name := crate_name
  description := rustTrim (doc.topDoc.getD "")
  methods := doc.methods.map fun m =>
    { name := rustTrim (m.fnName.getD "")
      signature := rustTrim (m.codeHeader.getD "")
      description := rustTrim (m.docblock.getD "") }
  traits := extractTraits doc
  fields := doc.fields.map fun f =>
    { name := f.fieldName.getD ""
      type_name := f.fieldType.getD ""
      description := f.docblock.getD "" }

/-- `StructDocsTool::fetch_docs` (lines 290-459): resolve the URL, fetch
the page, extract. -/
def fetch_docs (docs_rs_url : String) (fetch : Fetcher)
    (crate_name struct_name : String) (version : Option String) : Except String StructDocs :=
  match find_struct_url docs_rs_url fetch crate_name struct_name version with
  | .error e => .error e
  | .ok url =>
    match fetch url with
    | .error e => .error e
    | .ok doc => .ok (extract_docs struct_name crate_name doc)

/-! ## Tool call wrappers

`Tool::call` deserializes the JSON input with serde
(`serde_json::from_value::<StructDocsParams>` resp. `CrateNameParam`) and
runs the scraper.  The JSON value and the derived deserializers are
embedded below: a required field must be present and a string (any string,
including the empty one), an `Option<String>` field may be absent or null.
`input.unwrap_or_default()` turns an absent input into JSON null, which
fails deserialization. -/

inductive JValue where
  | jnull
  | jnum (n : Int)
  | jstr (s : String)
  | jobj (fields : List (String × JValue))

structure StructDocsParams where
  crate_name : String
  struct_name : String
  version : Option String

structure CrateNameParam where
  crate_name : String
  version : Option String

def parse_struct_docs_params : JValue → Except String StructDocsParams
  | .jobj fields =>
    match fields.lookup "crate_name" with
    | some (.jstr cn) =>
      match fields.lookup "struct_name" with
      | some (.jstr sn) =>
        match fields.lookup "version" with
        | none => .ok ⟨cn, sn, none⟩
        | some .jnull => .ok ⟨cn, sn, none⟩
        | some (.jstr v) => .ok ⟨cn, sn, some v⟩
        | some _ => .error "invalid type for field version"
      | some _ => .error "invalid type for field struct_name"
      | none => .error "missing field struct_name"
    | some _ => .error "invalid type for field crate_name"
    | none => .error "missing field crate_name"
  | _ => .error "invalid params: expected object"

def parse_crate_name_param : JValue → Except String CrateNameParam
  | .jobj fields =>
    match fields.lookup "crate_name" with
    | some (.jstr cn) =>
      match fields.lookup "version" with
      | none => .ok ⟨cn, none⟩
      | some .jnull => .ok ⟨cn, none⟩
      | some (.jstr v) => .ok ⟨cn, some v⟩
      | some _ => .error "invalid type for field version"
    | some _ => .error "invalid type for field crate_name"
    | none => .error "missing field crate_name"
  | _ => .error "invalid params: expected object"

/-- `StructDocsTool::call` (lines 498-518), with the MCP response wrapping
peeled off: deserialize, then fetch the docs.  No validation happens beyond
deserialization. -/
def struct_docs_call (docs_rs_url : String) (fetch : Fetcher)
    (input : Option JValue) : Except String StructDocs :=
  match parse_struct_docs_params (input.getD .jnull) with
  | .error e => .error e
  | .ok params => fetch_docs docs_rs_url fetch params.crate_name params.struct_name params.version

/-! ## CrateItemsTool (crate_items.rs) -/

structure Item where
  name : String
  path : String
  doc_link : String
deriving DecidableEq, Repr

/-- The result `CrateItems`; the `HashMap<String, Vec<Item>>` is embedded
as an association list in insertion order (labels are pairwise distinct, so
no insert ever overwrites). -/
structure CrateItems where
  crate_name : String
  version : String
  items : List (String × List Item)
deriving DecidableEq, Repr

/-- An all-items page as seen by crate_items.rs: for each section id, the
anchors matched by `h3#<id> + ul.all-items > li > a`. -/
structure CatalogDoc where
  sections : List (String × List Anchor)
deriving DecidableEq, Repr

def anchorsFor (doc : CatalogDoc) (id : String) : List Anchor :=
  (doc.sections.lookup id).getD []

/-- The fetch plus parse step of `scrape_items` (reqwest + parse_document),
abstracted as a capability like the struct tool fetcher. -/
abbrev CatalogFetcher := String → Except String CatalogDoc

/-- The fixed section keys (lines 60-68). -/
def scrapeSections : List String :=
  ["macros", "structs", "enums", "traits", "functions", "types", "attributes"]

/-- Title-casing of a section key (lines 72-80); the `unwrap` on the first
character never fires because every key is non-empty. -/
def capitalizeAscii (s : String) : String :=
  match s.data with
  | [] => ""
  | c :: rest => String.mk (c.toUpper :: rest)

def sectionLabel (s : String) : String :=
  if s = "types" then "Type Aliases" else capitalizeAscii s

/-- The versioned base URL of the hardcoded docs.rs root used by
crate_items.rs. -/
def catalogBase (crate_name ver : String) : String :=
  "https://docs.rs/" ++ crate_name ++ "/" ++ ver ++ "/" ++ crate_name

/-- `doc_link` construction (lines 95-105): absolute hrefs pass through,
otherwise `"https://docs.rs/{}/{}/{}/{}"` of crate, version, crate and the
href with leading slashes stripped. -/
def mkDocLink (crate_name ver path : String) : String :=
  if strStarts path "http" then path
  else catalogBase crate_name ver ++ "/" ++ dropLeadSlashes path

/-- The per-section item loop (lines 86-114): trim text and href, build the
doc link, keep the record only when both name and path are non-empty. -/
def sectionItems (crate_name ver : String) (anchors : List Anchor) : List Item :=
  anchors.filterMap fun link =>
    let name := rustTrim link.text
    let path := rustTrim link.href
    let doc_link := mkDocLink crate_name ver path
    if name ≠ "" ∧ path ≠ "" then some ⟨name, path, doc_link⟩ else none

/-- One iteration of the section loop (lines 70-119): scrape the section
and record it unless it came out empty. -/
def scrapeStep (crate_name ver : String) (doc : CatalogDoc)
    (acc : List (String × List Item)) (sec : String) : List (String × List Item) :=
  let si := sectionItems crate_name ver (anchorsFor doc sec)
  if si.isEmpty then acc else acc ++ [(sectionLabel sec, si)]

/-- The pure part of `CrateItemsTool::scrape_items` (lines 54-125) on a
fetched catalog document: sections with no surviving items are omitted. -/
def scrapeItemsFromDoc (crate_name ver : String) (doc : CatalogDoc) : CrateItems where
  crate_name := crate_name
  version := ver
  items := scrapeSections.foldl (scrapeStep crate_name ver doc) []

/-- `CrateItemsTool::scrape_items` (lines 39-126). -/
def scrape_items (fetch : CatalogFetcher) (crate_name : String)
    (version : Option String) : Except String CrateItems :=
  let ver := version.getD "latest"
  match fetch (allItemsUrl "https://docs.rs" crate_name ver) with
  | .error e => .error e
  | .ok doc => .ok (scrapeItemsFromDoc crate_name ver doc)

/-- `CrateItemsTool::call` (lines 164-175), response wrapping peeled off. -/
def crate_items_call (fetch : CatalogFetcher) (input : Option JValue) :
    Except String CrateItems :=
  match parse_crate_name_param (input.getD .jnull) with
  | .error e => .error e
  | .ok args => scrape_items fetch args.crate_name args.version

/-! ## Helper lemmas on the string operations -/

theorem splitSegsAux_ne_nil (acc : List Char) (l : List Char) :
    splitSegsAux acc l ≠ [] := by
  induction acc, l using splitSegsAux.induct with
  | case1 acc => simp [splitSegsAux]
  | case2 acc rest ih => simp [splitSegsAux]
  | case3 acc c rest h ih => rw [splitSegsAux.eq_def]; cases rest <;> simp_all

theorem splitSegs_ne_nil (s : String) : splitSegs s ≠ [] :=
  splitSegsAux_ne_nil [] s.data

theorem listStarts_append_self (l r : List Char) : listStarts l (l ++ r) = true := by
  induction l with
  | nil => rfl
  | cons c cs ih => simp [listStarts, ih]

theorem listStarts_mono (p : List Char) :
    ∀ l r, listStarts p l = true → listStarts p (l ++ r) = true := by
  induction p with
  | nil => intro l r _; rfl
  | cons x xs ih =>
    intro l r h
    cases l with
    | nil => simp [listStarts] at h
    | cons c cs =>
      simp only [listStarts, Bool.and_eq_true] at h
      simp [listStarts, h.1, ih cs r h.2]

theorem listHasSub_self_append (pat r : List Char) :
    listHasSub pat (pat ++ r) = true := by
  cases pat with
  | nil => cases r <;> simp [listHasSub, listStarts]
  | cons c cs => simp [listHasSub, listStarts_append_self, listStarts]

theorem listHasSub_append_left (pat l r : List Char) (h : listHasSub pat r = true) :
    listHasSub pat (l ++ r) = true := by
  induction l with
  | nil => simpa
  | cons c cs ih => simp [listHasSub, ih]

theorem strStarts_append (s t : String) : strStarts (s ++ t) s = true := by
  simp [strStarts, String.data_append, listStarts_append_self]

theorem strStarts_append_of (s t pat : String) (h : strStarts s pat = true) :
    strStarts (s ++ t) pat = true := by
  simp only [strStarts, String.data_append]
  exact listStarts_mono _ _ _ h

theorem strEnds_append (s t pat : String) (h : strEnds t pat = true) :
    strEnds (s ++ t) pat = true := by
  simp only [strEnds, String.data_append, List.reverse_append]
  exact listStarts_mono _ _ _ h

theorem hasSubstr_append_right (a b : String) : hasSubstr (a ++ b) b = true := by
  simp only [hasSubstr, String.data_append]
  exact listHasSub_append_left _ _ _
    (by simpa using listHasSub_self_append b.data [])

theorem hasSubstr_mid (a b c : String) : hasSubstr (a ++ b ++ c) b = true := by
  simp only [hasSubstr, String.data_append, List.append_assoc]
  exact listHasSub_append_left _ _ _ (listHasSub_self_append _ _)

theorem data_eq_nil_iff (s : String) : s.data = [] ↔ s = "" := by
  constructor
  · intro h; exact String.ext (h.trans rfl)
  · intro h; rw [h]

theorem string_ne_of_starts {s t pat : String}
    (hs : strStarts s pat = true) (ht : strStarts t pat = false) : s ≠ t := by
  intro h; rw [h, ht] at hs; exact Bool.false_ne_true hs

/-- Splitting a list that does not contain the separator yields one piece. -/
theorem splitCharAux_no_sep (sep : Char) :
    ∀ (l acc : List Char), (∀ c ∈ l, c ≠ sep) →
      splitCharAux sep acc l = [String.mk (acc.reverse ++ l)] := by
  intro l
  induction l with
  | nil => intro acc _; simp [splitCharAux]
  | cons c cs ih =>
    intro acc h
    have hc : c ≠ sep := h c (by simp)
    simp only [splitCharAux, if_neg hc]
    rw [ih (c :: acc) (fun x hx => h x (by simp [hx]))]
    simp

theorem lastIdxOf_none (c : Char) :
    ∀ l : List Char, (∀ x ∈ l, x ≠ c) → lastIdxOf c l = none := by
  intro l
  induction l with
  | nil => intro _; rfl
  | cons x xs ih =>
    intro h
    have hx : x ≠ c := h x (by simp)
    simp only [lastIdxOf, ih (fun y hy => h y (by simp [hy]))]
    simp [hx]

theorem dropLeadSlashes_of_no_lead {s : String} (h : strStarts s "/" = false) :
    dropLeadSlashes s = s := by
  unfold dropLeadSlashes
  cases hs : s.data with
  | nil => exact String.ext (by rw [hs]; rfl)
  | cons c cs =>
    have hl : listStarts ['/'] (c :: cs) = false := by
      have h' := h
      unfold strStarts at h'
      rw [hs] at h'
      exact h'
    have hc : (c == '/') = false := by
      cases hb : (c == '/')
      · rfl
      · exfalso
        have hcv : c = '/' := by simpa using hb
        subst hcv
        simp [listStarts] at hl
    rw [List.dropWhile_cons, hc]
    simp only [Bool.false_eq_true, if_false]
    exact String.ext (by rw [hs])

theorem listHasSub_cons_of (pat : List Char) (c : Char) (l : List Char)
    (h1 : listStarts pat (c :: l) = false) (h2 : listHasSub pat l = false) :
    listHasSub pat (c :: l) = false := by
  simp [listHasSub, h1, h2]

theorem tryStrategies_pair (p : Anchor → Bool) (l1 l2 : List Anchor) :
    tryStrategies p [l1, l2] =
      (match l1.find? p with
       | some a => some a
       | none => l2.find? p) := by
  cases h1 : l1.find? p with
  | some a => simp [tryStrategies, h1]
  | none =>
    cases h2 : l2.find? p with
    | some a => simp [tryStrategies, h1, h2]
    | none => simp [tryStrategies, h1, h2]

/-- Characterization of the resolution logic once the request name has
been split: first strategy, then second strategy, then the failure
message. -/
theorem resolve_in_doc_eq (docs_rs_url crate_name struct_name ver : String)
    (doc : Document) (b : String)
    (hb : (splitSegs struct_name).getLast? = some b) :
    resolve_in_doc docs_rs_url crate_name struct_name ver doc =
      (match doc.oldAnchors.find? (anchorMatches struct_name b (modulePathOf struct_name)) with
       | some a => Except.ok (buildUrl docs_rs_url crate_name ver (modulePathOf struct_name) a.href)
       | none =>
         match doc.newAnchors.find? (anchorMatches struct_name b (modulePathOf struct_name)) with
         | some a => Except.ok (buildUrl docs_rs_url crate_name ver (modulePathOf struct_name) a.href)
         | none =>
           Except.error ("Could not find struct " ++ struct_name ++ " in crate " ++ crate_name)) := by
  unfold resolve_in_doc
  rw [hb]
  show (match tryStrategies (anchorMatches struct_name b (modulePathOf struct_name))
          [doc.oldAnchors, doc.newAnchors] with
        | some a => Except.ok (buildUrl docs_rs_url crate_name ver (modulePathOf struct_name) a.href)
        | none =>
          Except.error ("Could not find struct " ++ struct_name ++ " in crate " ++ crate_name)) = _
  rw [tryStrategies_pair]
  cases h1 : doc.oldAnchors.find? (anchorMatches struct_name b (modulePathOf struct_name)) with
  | some a => rfl
  | none =>
    cases h2 : doc.newAnchors.find? (anchorMatches struct_name b (modulePathOf struct_name)) with
    | some a => rfl
    | none => rfl

theorem strStarts_slash_http (fname : String) :
    strStarts ("/" ++ fname) "http" = false := by
  unfold strStarts
  rw [String.data_append]
  show listStarts ['h', 't', 't', 'p'] ('/' :: fname.data) = false
  simp [listStarts]

theorem hasSubstr_empty_left {m : String} (hm : m ≠ "") : hasSubstr "" m = false := by
  show listHasSub m.data [] = false
  cases hd : m.data with
  | nil => exact absurd ((data_eq_nil_iff m).mp hd) hm
  | cons x xs => rw [listHasSub]; rfl

/-- URL construction for an unqualified request: the relative href is
appended to the versioned base URL unchanged. -/
theorem buildUrl_no_module (docs_rs_url crate_name ver href : String)
    (hh : strStarts href "http" = false) :
    buildUrl docs_rs_url crate_name ver "" href =
      versionedBase docs_rs_url crate_name ver ++ href := by
  unfold buildUrl
  simp [hh]

/-- URL construction when the module path already occurs inside a path
segment of the href: no splice happens. -/
theorem buildUrl_module_present (docs_rs_url crate_name ver m href : String)
    (hh : strStarts href "http" = false)
    (hin : ((splitChar '/' href).any fun p => hasSubstr p m) = true) :
    buildUrl docs_rs_url crate_name ver m href =
      versionedBase docs_rs_url crate_name ver ++ href := by
  unfold buildUrl
  simp [hh, hin]

theorem splitChar_slash_single (fname : String) (hns : ∀ c ∈ fname.data, c ≠ '/') :
    splitChar '/' ("/" ++ fname) = ["", fname] := by
  unfold splitChar
  rw [String.data_append]
  show splitCharAux '/' [] ('/' :: fname.data) = ["", fname]
  rw [splitCharAux, if_pos rfl, splitCharAux_no_sep '/' fname.data [] hns]
  rfl

theorem lastIdxOf_slash_cons (fname : String) (hns : ∀ c ∈ fname.data, c ≠ '/') :
    lastIdxOf '/' ('/' :: fname.data) = some 0 := by
  rw [lastIdxOf, lastIdxOf_none '/' fname.data hns]
  rfl

/-- URL construction for a qualified request whose relative href starts
with a slash and has a single, module-free final segment: the module path
is spliced in as directory segments before the file name. -/
theorem buildUrl_splice (docs_rs_url crate_name ver m fname : String)
    (hm : m ≠ "") (hns : ∀ c ∈ fname.data, c ≠ '/')
    (hsub : hasSubstr fname m = false) :
    buildUrl docs_rs_url crate_name ver m ("/" ++ fname) =
      versionedBase docs_rs_url crate_name ver ++ "/" ++ modSlashes m ++ "/" ++ fname := by
  unfold buildUrl
  rw [strStarts_slash_http]
  simp only [Bool.false_eq_true, if_false]
  rw [splitChar_slash_single fname hns]
  have hany : (List.any ["", fname] fun p => hasSubstr p m) = false := by
    simp [List.any, hasSubstr_empty_left hm, hsub]
  rw [if_pos (show m ≠ "" ∧ (List.any ["", fname] fun p => hasSubstr p m) = false from
    ⟨hm, hany⟩)]
  unfold spliceModulePath
  rw [String.data_append]
  show versionedBase docs_rs_url crate_name ver ++
      (String.mk (('/' :: fname.data).take ((lastIdxOf '/' ('/' :: fname.data)).getD 0)) ++ "/"
        ++ modSlashes m ++ "/"
        ++ String.mk (('/' :: fname.data).drop ((lastIdxOf '/' ('/' :: fname.data)).getD 0 + 1))) = _
  rw [lastIdxOf_slash_cons fname hns]
  show versionedBase docs_rs_url crate_name ver ++
      ("" ++ "/" ++ modSlashes m ++ "/" ++ fname) = _
  simp [String.append_assoc]

/-! ## Claim theorems -/

theorem notfound_ne_invalid (struct_name crate_name : String) :
    ("Could not find struct " ++ struct_name ++ " in crate " ++ crate_name) ≠
      "Invalid struct name: no parts found" := by
  have h1 : strStarts ("Could not find struct " ++ struct_name ++ " in crate " ++ crate_name)
      "Could" = true :=
    strStarts_append_of _ _ _ (strStarts_append_of _ _ _
      (strStarts_append_of _ _ _ (by decide)))
  have h2 : strStarts "Invalid struct name: no parts found" "Could" = false := by decide
  exact string_ne_of_starts h1 h2

/-- Claim C3 (confirmed): the traits list is populated from exactly one of
the three tiers, tried in the fixed order explicit, synthetic, blanket,
stopping at the first tier that collected at least one non-empty trait
name; in particular a non-empty explicit tier excludes every synthetic and
blanket name from the result. -/
theorem traits_from_single_tier (struct_name crate_name : String) (doc : Document) :
    (extract_docs struct_name crate_name doc).traits =
      (if collectTraitNames doc.traitImpls ≠ [] then collectTraitNames doc.traitImpls
       else if collectTraitNames doc.syntheticImpls ≠ [] then collectTraitNames doc.syntheticImpls
       else collectTraitNames doc.blanketImpls) := by
  show extractTraits doc = _
  unfold extractTraits
  by_cases h1 : collectTraitNames doc.traitImpls = []
  · by_cases h2 : collectTraitNames doc.syntheticImpls = [] <;>
      simp [h1, h2, List.isEmpty_iff]
  · simp [h1, List.isEmpty_iff]

/-- Claim C4 (confirmed): a successful `fetch_docs` returns a record whose
`name` field is exactly the struct name supplied by the caller, whatever
strategy or URL variant resolved it. -/
theorem name_echoes_request (docs_rs_url : String) (fetch : Fetcher)
    (crate_name struct_name : String) (version : Option String) (d : StructDocs)
    (h : fetch_docs docs_rs_url fetch crate_name struct_name version = .ok d) :
    d.name = struct_name := by
  unfold fetch_docs at h
  split at h
  · exact absurd h (by simp)
  · split at h
    · exact absurd h (by simp)
    · simp only [Except.ok.injEq] at h
      rw [← h]
      rfl

theorem name_echoes_request_witness :
    (extract_docs "trace::TracerProviderBuilder" "opentelemetry_sdk"
        ⟨[⟨"trace::TracerProviderBuilder", "/trace/struct.TracerProviderBuilder.html"⟩],
          [], some " d ", [], [some "Clone"], [], [], []⟩).name
      = "trace::TracerProviderBuilder" :=
  name_echoes_request "https://docs.rs"
    (fun _ => .ok ⟨[⟨"trace::TracerProviderBuilder", "/trace/struct.TracerProviderBuilder.html"⟩],
      [], some " d ", [], [some "Clone"], [], [], []⟩)
    "opentelemetry_sdk" "trace::TracerProviderBuilder" (some "0.28.0") _ rfl

/-- Claim C5 (confirmed): the resolver tries the two selector strategies in
fixed order, commits to the first that yields a structurally valid match
for the request, and consults the second strategy only when the first
yielded no such match (so the second anchor list is irrelevant whenever the
first matched). -/
theorem two_strategies_first_match_wins (docs_rs_url crate_name struct_name ver : String)
    (doc : Document) (b : String)
    (hb : (splitSegs struct_name).getLast? = some b) :
    (resolve_in_doc docs_rs_url crate_name struct_name ver doc =
      match doc.oldAnchors.find? (anchorMatches struct_name b (modulePathOf struct_name)) with
      | some a => Except.ok (buildUrl docs_rs_url crate_name ver (modulePathOf struct_name) a.href)
      | none =>
        match doc.newAnchors.find? (anchorMatches struct_name b (modulePathOf struct_name)) with
        | some a => Except.ok (buildUrl docs_rs_url crate_name ver (modulePathOf struct_name) a.href)
        | none =>
          Except.error ("Could not find struct " ++ struct_name ++ " in crate " ++ crate_name)) ∧
    (∀ a, doc.oldAnchors.find? (anchorMatches struct_name b (modulePathOf struct_name)) = some a →
      ∀ na, resolve_in_doc docs_rs_url crate_name struct_name ver { doc with newAnchors := na } =
        resolve_in_doc docs_rs_url crate_name struct_name ver doc) := by
  constructor
  · exact resolve_in_doc_eq docs_rs_url crate_name struct_name ver doc b hb
  · intro a ha na
    rw [resolve_in_doc_eq docs_rs_url crate_name struct_name ver doc b hb,
      resolve_in_doc_eq docs_rs_url crate_name struct_name ver
        { doc with newAnchors := na } b hb]
    rw [show ({ doc with newAnchors := na } : Document).oldAnchors = doc.oldAnchors from rfl]
    rw [ha]

/-- Witness for C5: with the first strategy matching, replacing the second
strategy anchors changes nothing. -/
theorem two_strategies_first_match_wins_witness :
    resolve_in_doc "https://docs.rs" "c" "Foo" "latest"
        ⟨[⟨"Foo", "/struct.Foo.html"⟩], [], none, [], [], [], [], []⟩ =
      resolve_in_doc "https://docs.rs" "c" "Foo" "latest"
        ⟨[⟨"Foo", "/struct.Foo.html"⟩], [⟨"Foo", "/other/struct.Foo.html"⟩],
          none, [], [], [], [], []⟩ :=
  (two_strategies_first_match_wins "https://docs.rs" "c" "Foo" "latest"
      ⟨[⟨"Foo", "/struct.Foo.html"⟩], [⟨"Foo", "/other/struct.Foo.html"⟩],
        none, [], [], [], [], []⟩
      "Foo" (by decide)).2
    ⟨"Foo", "/struct.Foo.html"⟩ (by decide) []

/-- Claim C10 (confirmed): splitting the requested name into segments
always yields at least one segment, so the "Invalid struct name: no parts
found" branch of the resolver is unreachable for every input. -/
theorem invalid_name_branch_unreachable (docs_rs_url crate_name struct_name ver : String)
    (doc : Document) :
    (splitSegs struct_name).getLast?.isSome = true ∧
    resolve_in_doc docs_rs_url crate_name struct_name ver doc ≠
      Except.error "Invalid struct name: no parts found" := by
  have hsome : (splitSegs struct_name).getLast?.isSome = true :=
    List.getLast?_isSome.mpr (splitSegs_ne_nil _)
  refine ⟨hsome, ?_⟩
  obtain ⟨b, hb⟩ := Option.isSome_iff_exists.mp hsome
  rw [resolve_in_doc_eq docs_rs_url crate_name struct_name ver doc b hb]
  cases h1 : doc.oldAnchors.find? (anchorMatches struct_name b (modulePathOf struct_name)) with
  | some a => simp
  | none =>
    cases h2 : doc.newAnchors.find? (anchorMatches struct_name b (modulePathOf struct_name)) with
    | some a => simp
    | none =>
      simp only [Except.error.injEq, ne_eq]
      exact notfound_ne_invalid struct_name crate_name

/-- Claim C8 (confirmed): extraction is total on every type-page document
and each absent sub-element independently defaults to the empty value
without aborting anything else; `fetch_docs` fails only when resolution or
the fetch itself failed. -/
theorem extraction_never_fails (docs_rs_url : String) (crate_name struct_name : String)
    (version : Option String) (doc : Document) :
    (doc.topDoc = none → (extract_docs struct_name crate_name doc).description = "") ∧
    (extract_docs struct_name crate_name doc).methods.length = doc.methods.length ∧
    (∀ (i : Nat) (m : MethodNode), doc.methods[i]? = some m →
      ∃ md, (extract_docs struct_name crate_name doc).methods[i]? = some md ∧
        (m.fnName = none → md.name = "") ∧
        (m.codeHeader = none → md.signature = "") ∧
        (m.docblock = none → md.description = "")) ∧
    (extract_docs struct_name crate_name doc).fields.length = doc.fields.length ∧
    (∀ (i : Nat) (f : FieldNode), doc.fields[i]? = some f →
      ∃ fd, (extract_docs struct_name crate_name doc).fields[i]? = some fd ∧
        (f.fieldName = none → fd.name = "") ∧
        (f.fieldType = none → fd.type_name = "") ∧
        (f.docblock = none → fd.description = "")) ∧
    (∀ (fetch : Fetcher) (url : String),
      find_struct_url docs_rs_url fetch crate_name struct_name version = .ok url →
      fetch url = .ok doc →
      fetch_docs docs_rs_url fetch crate_name struct_name version =
        .ok (extract_docs struct_name crate_name doc)) := by
  refine ⟨?_, ?_, ?_, ?_, ?_, ?_⟩
  · intro h; show rustTrim (doc.topDoc.getD "") = ""; rw [h]; rfl
  · show (doc.methods.map _).length = _; simp
  · intro i m hm
    refine ⟨⟨rustTrim (m.fnName.getD ""), rustTrim (m.codeHeader.getD ""),
        rustTrim (m.docblock.getD "")⟩, ?_, ?_, ?_, ?_⟩
    · show (doc.methods.map _)[i]? = _
      rw [List.getElem?_map, hm]
      rfl
    · intro h; show rustTrim (m.fnName.getD "") = ""; rw [h]; rfl
    · intro h; show rustTrim (m.codeHeader.getD "") = ""; rw [h]; rfl
    · intro h; show rustTrim (m.docblock.getD "") = ""; rw [h]; rfl
  · show (doc.fields.map _).length = _; simp
  · intro i f hf
    refine ⟨⟨f.fieldName.getD "", f.fieldType.getD "", f.docblock.getD ""⟩, ?_, ?_, ?_, ?_⟩
    · show (doc.fields.map _)[i]? = _
      rw [List.getElem?_map, hf]
      rfl
    · intro h; show f.fieldName.getD "" = ""; rw [h]; rfl
    · intro h; show f.fieldType.getD "" = ""; rw [h]; rfl
    · intro h; show f.docblock.getD "" = ""; rw [h]; rfl
  · intro fetch url hres hfetch
    unfold fetch_docs
    rw [hres]
    show (match fetch url with
          | Except.error e => Except.error e
          | Except.ok doc2 => Except.ok (extract_docs struct_name crate_name doc2)) = _
    rw [hfetch]

/-- Witness for C8: a page with every optional sub-element absent still
yields a record, with empty defaults. -/
theorem extraction_never_fails_witness :
    (extract_docs "Foo" "c"
        ⟨[], [], none, [⟨none, none, none⟩], [], [], [], [⟨none, none, none⟩]⟩).description
      = "" ∧
    ((extract_docs "Foo" "c"
        ⟨[], [], none, [⟨none, none, none⟩], [], [], [], [⟨none, none, none⟩]⟩).methods[0]?).map
        MethodDoc.name = some "" := by
  have h := extraction_never_fails "https://docs.rs" "c" "Foo" none
    ⟨[], [], none, [⟨none, none, none⟩], [], [], [], [⟨none, none, none⟩]⟩
  refine ⟨h.1 rfl, ?_⟩
  obtain ⟨md, hmd, hname, -, -⟩ := h.2.2.1 0 ⟨none, none, none⟩ rfl
  rw [hmd]
  show some md.name = some ""
  rw [hname rfl]

/-- Claim C1 (corrected), counterexample: on a catalog whose anchor text
for the type is the module-qualified name only (the form the all-items page
publishes), the qualified request resolves but the bare request fails, so
the two resolutions do not both succeed with the same URL. -/
theorem resolve_bare_vs_qualified_counterexample :
    resolve_in_doc "https://docs.rs" "opentelemetry_sdk" "trace::TracerProviderBuilder" "0.28.0"
        ⟨[⟨"trace::TracerProviderBuilder", "/trace/struct.TracerProviderBuilder.html"⟩],
          [], none, [], [], [], [], []⟩
      = Except.ok
          "https://docs.rs/opentelemetry_sdk/0.28.0/opentelemetry_sdk/trace/struct.TracerProviderBuilder.html" ∧
    resolve_in_doc "https://docs.rs" "opentelemetry_sdk" "TracerProviderBuilder" "0.28.0"
        ⟨[⟨"trace::TracerProviderBuilder", "/trace/struct.TracerProviderBuilder.html"⟩],
          [], none, [], [], [], [], []⟩
      = Except.error "Could not find struct TracerProviderBuilder in crate opentelemetry_sdk" :=
  ⟨rfl, rfl⟩

/-- Claim C1 (corrected, amended): when the catalog lists the type both
under its bare name and under its qualified name with one shared relative
struct href whose path segments already carry the module path, the bare and
the qualified resolution both succeed and return the same URL. -/
theorem resolve_bare_and_qualified_agree (docs_rs_url crate_name struct_name b m h ver : String)
    (doc : Document)
    (hb : (splitSegs struct_name).getLast? = some b)
    (hm : modulePathOf struct_name = m)
    (hmne : m ≠ "")
    (hbb : splitSegs b = [b])
    (hanch : doc.oldAnchors = [⟨b, h⟩, ⟨struct_name, h⟩])
    (hhttp : strStarts h "http" = false)
    (hstruct : hasSubstr h "struct" = true)
    (hmodin : ((splitChar '/' h).any fun p => hasSubstr p m) = true) :
    resolve_in_doc docs_rs_url crate_name b ver doc =
      Except.ok (versionedBase docs_rs_url crate_name ver ++ h) ∧
    resolve_in_doc docs_rs_url crate_name struct_name ver doc =
      Except.ok (versionedBase docs_rs_url crate_name ver ++ h) := by
  have hbareSplit : (splitSegs b).getLast? = some b := by rw [hbb]; rfl
  have hbareMod : modulePathOf b = "" := by unfold modulePathOf; rw [hbb]; rfl
  constructor
  · rw [resolve_in_doc_eq docs_rs_url crate_name b ver doc b hbareSplit, hanch, hbareMod]
    have hmatch : anchorMatches b b "" ⟨b, h⟩ = true := by
      unfold anchorMatches
      simp [hstruct]
    rw [List.find?_cons]
    rw [hmatch]
    show Except.ok (buildUrl docs_rs_url crate_name ver "" h) = _
    rw [buildUrl_no_module docs_rs_url crate_name ver h hhttp]
  · rw [resolve_in_doc_eq docs_rs_url crate_name struct_name ver doc b hb, hanch, hm]
    cases hm1 : anchorMatches struct_name b m ⟨b, h⟩ with
    | true =>
      rw [List.find?_cons, hm1]
      show Except.ok (buildUrl docs_rs_url crate_name ver m h) = _
      rw [buildUrl_module_present docs_rs_url crate_name ver m h hhttp hmodin]
    | false =>
      have hm2 : anchorMatches struct_name b m ⟨struct_name, h⟩ = true := by
        unfold anchorMatches
        simp [hmne, hstruct]
      rw [List.find?_cons, hm1, List.find?_cons, hm2]
      show Except.ok (buildUrl docs_rs_url crate_name ver m h) = _
      rw [buildUrl_module_present docs_rs_url crate_name ver m h hhttp hmodin]

/-- Witness for the amended C1, at the fixture scenario of the spec. -/
theorem resolve_bare_and_qualified_agree_witness :
    resolve_in_doc "https://docs.rs" "opentelemetry_sdk" "TracerProviderBuilder" "0.28.0"
        ⟨[⟨"TracerProviderBuilder", "/trace/struct.TracerProviderBuilder.html"⟩,
          ⟨"trace::TracerProviderBuilder", "/trace/struct.TracerProviderBuilder.html"⟩],
          [], none, [], [], [], [], []⟩
      = Except.ok
          "https://docs.rs/opentelemetry_sdk/0.28.0/opentelemetry_sdk/trace/struct.TracerProviderBuilder.html" ∧
    resolve_in_doc "https://docs.rs" "opentelemetry_sdk" "trace::TracerProviderBuilder" "0.28.0"
        ⟨[⟨"TracerProviderBuilder", "/trace/struct.TracerProviderBuilder.html"⟩,
          ⟨"trace::TracerProviderBuilder", "/trace/struct.TracerProviderBuilder.html"⟩],
          [], none, [], [], [], [], []⟩
      = Except.ok
          "https://docs.rs/opentelemetry_sdk/0.28.0/opentelemetry_sdk/trace/struct.TracerProviderBuilder.html" :=
  resolve_bare_and_qualified_agree "https://docs.rs" "opentelemetry_sdk"
    "trace::TracerProviderBuilder" "TracerProviderBuilder" "trace"
    "/trace/struct.TracerProviderBuilder.html" "0.28.0"
    ⟨[⟨"TracerProviderBuilder", "/trace/struct.TracerProviderBuilder.html"⟩,
      ⟨"trace::TracerProviderBuilder", "/trace/struct.TracerProviderBuilder.html"⟩],
      [], none, [], [], [], [], []⟩
    (by decide) (by decide) (by decide) (by decide) rfl (by decide) (by decide) (by decide)

/-- Claim C2 (corrected), counterexample, two violations.  First, for a
relative catalog href with no leading separator (the form the real
all-items pages publish), the resolver concatenates it to the versioned
base URL without inserting a separator, so the returned URL is not the
contract URL `base ++ "/struct.Foo.html"`.  Second, even for an href of the
exact contract form `"/struct.Html.html"`, a qualified request whose module
path occurs as a substring of the filename (module `html` occurs inside
`.html`) makes the per-segment `contains` test at line 261 skip the splice,
so the module path is not inserted before the filename as the contract
demands. -/
theorem url_contract_counterexample :
    resolve_in_doc "https://docs.rs" "mycrate" "Foo" "1.2.3"
        ⟨[⟨"Foo", "struct.Foo.html"⟩], [], none, [], [], [], [], []⟩
      = Except.ok "https://docs.rs/mycrate/1.2.3/mycratestruct.Foo.html" ∧
    ("https://docs.rs/mycrate/1.2.3/mycratestruct.Foo.html" : String) ≠
      versionedBase "https://docs.rs" "mycrate" "1.2.3" ++ "/struct.Foo.html" ∧
    resolve_in_doc "https://docs.rs" "scraper" "html::Html" "0.22.0"
        ⟨[⟨"html::Html", "/struct.Html.html"⟩], [], none, [], [], [], [], []⟩
      = Except.ok "https://docs.rs/scraper/0.22.0/scraper/struct.Html.html" ∧
    ("https://docs.rs/scraper/0.22.0/scraper/struct.Html.html" : String) ≠
      versionedBase "https://docs.rs" "scraper" "0.22.0" ++ "/" ++ modSlashes "html"
        ++ "/" ++ "struct.Html.html" :=
  ⟨rfl, by decide, rfl, by decide⟩

/-- Claim C2 (corrected, amended): the URL construction is bit-exact per
the contract for catalog hrefs of the exact contract form: a leading path
separator followed by a single kind-prefixed filename with no further
separator, where for a qualified request the module path does not occur as
a substring of that filename.  Under these conditions: the versioned base
URL is site/package/version/package, the all-items page is
base ++ "/all.html", an unqualified type page resolved from href
"/(file)" is base ++ "/(file)", and a qualified one has the module path
(with `::` turned into `/`) inserted as directory segments immediately
before the file name.  Outside them the contract breaks: hrefs without a
leading separator are concatenated without one, and a module path occurring
inside the filename (such as `html` inside `.html`) suppresses the splice
(see the counterexample). -/
theorem url_contract_for_slash_hrefs (docs_rs_url crate_name ver m fname : String)
    (hm : m ≠ "")
    (hns : ∀ c ∈ fname.data, c ≠ '/')
    (hsub : hasSubstr fname m = false) :
    allItemsUrl docs_rs_url crate_name ver =
      versionedBase docs_rs_url crate_name ver ++ "/all.html" ∧
    versionedBase docs_rs_url crate_name ver =
      docs_rs_url ++ "/" ++ crate_name ++ "/" ++ ver ++ "/" ++ crate_name ∧
    buildUrl docs_rs_url crate_name ver "" ("/" ++ fname) =
      versionedBase docs_rs_url crate_name ver ++ "/" ++ fname ∧
    buildUrl docs_rs_url crate_name ver m ("/" ++ fname) =
      versionedBase docs_rs_url crate_name ver ++ "/" ++ modSlashes m ++ "/" ++ fname := by
  refine ⟨rfl, rfl, ?_, buildUrl_splice docs_rs_url crate_name ver m fname hm hns hsub⟩
  rw [buildUrl_no_module docs_rs_url crate_name ver ("/" ++ fname) (strStarts_slash_http fname)]
  rw [String.append_assoc]

/-- Witness for the amended C2. -/
theorem url_contract_for_slash_hrefs_witness :
    allItemsUrl "https://docs.rs" "opentelemetry_sdk" "0.28.0" =
      versionedBase "https://docs.rs" "opentelemetry_sdk" "0.28.0" ++ "/all.html" ∧
    buildUrl "https://docs.rs" "opentelemetry_sdk" "0.28.0" "" ("/" ++ "struct.Foo.html") =
      versionedBase "https://docs.rs" "opentelemetry_sdk" "0.28.0" ++ "/" ++ "struct.Foo.html" ∧
    buildUrl "https://docs.rs" "opentelemetry_sdk" "0.28.0" "trace" ("/" ++ "struct.Foo.html") =
      versionedBase "https://docs.rs" "opentelemetry_sdk" "0.28.0" ++ "/" ++ modSlashes "trace"
        ++ "/" ++ "struct.Foo.html" := by
  have h := url_contract_for_slash_hrefs "https://docs.rs" "opentelemetry_sdk" "0.28.0"
    "trace" "struct.Foo.html" (by decide) (by decide) (by decide)
  exact ⟨h.1, h.2.2.1, h.2.2.2⟩

theorem sectionItems_link (crate_name ver : String) (anchors : List Anchor) (it : Item)
    (hit : it ∈ sectionItems crate_name ver anchors) :
    it.doc_link = mkDocLink crate_name ver it.path := by
  unfold sectionItems at hit
  obtain ⟨a, -, ha⟩ := List.mem_filterMap.mp hit
  simp only at ha
  split at ha
  · simp only [Option.some.injEq] at ha
    rw [← ha]
  · exact absurd ha (by simp)

theorem scrapeStep_mem (crate_name ver : String) (doc : CatalogDoc)
    (acc : List (String × List Item)) (s sec : String) (its : List Item)
    (hmem : (sec, its) ∈ scrapeStep crate_name ver doc acc s) :
    (sec, its) ∈ acc ∨ its = sectionItems crate_name ver (anchorsFor doc s) := by
  unfold scrapeStep at hmem
  by_cases hsi : (sectionItems crate_name ver (anchorsFor doc s)).isEmpty
  · rw [if_pos hsi] at hmem
    exact Or.inl hmem
  · rw [if_neg hsi] at hmem
    rcases List.mem_append.mp hmem with h1 | h2
    · exact Or.inl h1
    · right
      simp only [List.mem_singleton, Prod.mk.injEq] at h2
      exact h2.2

theorem scrape_fold_mem (crate_name ver : String) (doc : CatalogDoc) :
    ∀ (secs : List String) (acc : List (String × List Item)) (sec : String) (its : List Item),
      (sec, its) ∈ secs.foldl (scrapeStep crate_name ver doc) acc →
      (sec, its) ∈ acc ∨ ∃ key, its = sectionItems crate_name ver (anchorsFor doc key) := by
  intro secs
  induction secs with
  | nil => intro acc sec its hmem; exact Or.inl hmem
  | cons s rest ih =>
    intro acc sec its hmem
    rw [List.foldl_cons] at hmem
    rcases ih _ sec its hmem with hacc | hex
    · rcases scrapeStep_mem crate_name ver doc acc s sec its hacc with h1 | h2
      · exact Or.inl h1
      · exact Or.inr ⟨s, h2⟩
    · exact Or.inr hex

/-- Every item of the scrape result carries the doc link the code computed
from its own (trimmed) href. -/
theorem scrape_result_link (crate_name ver : String) (doc : CatalogDoc)
    (sec : String) (its : List Item) (it : Item)
    (hsec : (sec, its) ∈ (scrapeItemsFromDoc crate_name ver doc).items)
    (hit : it ∈ its) :
    it.doc_link = mkDocLink crate_name ver it.path := by
  have hmem : (sec, its) ∈ scrapeSections.foldl (scrapeStep crate_name ver doc) [] := hsec
  rcases scrape_fold_mem crate_name ver doc scrapeSections [] sec its hmem with h1 | ⟨key, hkey⟩
  · exact absurd h1 (by simp)
  · exact sectionItems_link crate_name ver (anchorsFor doc key) it (hkey ▸ hit)

/-- Claim C6 (corrected), counterexample: an absolute catalog href passes
through unchanged, so the resulting doc_link neither starts with the
versioned base URL nor ends with ".html". -/
theorem doc_link_shape_counterexample :
    (scrapeItemsFromDoc "serde" "1.0.0"
        ⟨[("structs", [⟨"Evil", "http://evil.example/style.css"⟩])]⟩).items
      = [("Structs", [⟨"Evil", "http://evil.example/style.css",
          "http://evil.example/style.css"⟩])] ∧
    strStarts "http://evil.example/style.css" (catalogBase "serde" "1.0.0") = false ∧
    strEnds "http://evil.example/style.css" ".html" = false :=
  ⟨rfl, by decide, by decide⟩

/-- Claim C6 (corrected, amended): every ItemRecord built from a relative
catalog href that does not start with a separator, ends with ".html" and
contains no doubled separator has a doc_link equal to the versioned base
URL plus "/" plus that href; hence the doc_link starts with the versioned
base URL, ends with ".html", and the appended part introduces no doubled
path separator (the scheme of the base URL itself contains the only
"//"). -/
theorem doc_link_shape (crate_name ver : String) (doc : CatalogDoc)
    (sec : String) (its : List Item) (it : Item)
    (hsec : (sec, its) ∈ (scrapeItemsFromDoc crate_name ver doc).items)
    (hit : it ∈ its)
    (hrel : strStarts it.path "http" = false)
    (hnl : strStarts it.path "/" = false)
    (hhtml : strEnds it.path ".html" = true)
    (hdbl : hasSubstr it.path "//" = false) :
    it.doc_link = catalogBase crate_name ver ++ "/" ++ it.path ∧
    strStarts it.doc_link (catalogBase crate_name ver) = true ∧
    strEnds it.doc_link ".html" = true ∧
    hasSubstr ("/" ++ it.path) "//" = false := by
  have hlink := scrape_result_link crate_name ver doc sec its it hsec hit
  have heq : it.doc_link = catalogBase crate_name ver ++ "/" ++ it.path := by
    rw [hlink]
    unfold mkDocLink
    rw [hrel]
    simp only [Bool.false_eq_true, if_false]
    rw [dropLeadSlashes_of_no_lead hnl, String.append_assoc]
  refine ⟨heq, ?_, ?_, ?_⟩
  · rw [heq]
    exact strStarts_append_of (catalogBase crate_name ver ++ "/") it.path
      (catalogBase crate_name ver) (strStarts_append _ _)
  · rw [heq]
    exact strEnds_append (catalogBase crate_name ver ++ "/") it.path ".html" hhtml
  · show listHasSub "//".data ("/" ++ it.path).data = false
    rw [String.data_append]
    show listHasSub ['/', '/'] ('/' :: it.path.data) = false
    apply listHasSub_cons_of
    · show (('/' == '/') && listStarts ['/'] it.path.data) = false
      cases hd : it.path.data with
      | nil => rfl
      | cons c cs =>
        have hc : ('/' == c) = false := by
          have h' := hnl
          unfold strStarts at h'
          rw [hd] at h'
          have : listStarts ['/'] (c :: cs) = false := h'
          simp only [listStarts] at this
          simpa using this
        simp [listStarts, hc]
    · exact hdbl

/-- Witness for the amended C6, at the fixture struct of the spec. -/
theorem doc_link_shape_witness :
    let it : Item := ⟨"html::Html", "html/struct.Html.html",
      "https://docs.rs/scraper/0.22.0/scraper/html/struct.Html.html"⟩
    it.doc_link = catalogBase "scraper" "0.22.0" ++ "/" ++ it.path ∧
    strStarts it.doc_link (catalogBase "scraper" "0.22.0") = true ∧
    strEnds it.doc_link ".html" = true ∧
    hasSubstr ("/" ++ it.path) "//" = false :=
  doc_link_shape "scraper" "0.22.0"
    ⟨[("structs", [⟨"html::Html", "html/struct.Html.html"⟩])]⟩
    "Structs" [⟨"html::Html", "html/struct.Html.html",
      "https://docs.rs/scraper/0.22.0/scraper/html/struct.Html.html"⟩]
    ⟨"html::Html", "html/struct.Html.html",
      "https://docs.rs/scraper/0.22.0/scraper/html/struct.Html.html"⟩
    (by decide) (by decide) (by decide) (by decide) (by decide) (by decide)

/-- Claim C7 (corrected), counterexample: the returned not-found message
names the requested type and the package but not the version, even when a
version was supplied. -/
theorem notfound_message_counterexample :
    resolve_in_doc "https://docs.rs" "serde" "Missing" "9.9.9"
        ⟨[], [], none, [], [], [], [], []⟩
      = Except.error "Could not find struct Missing in crate serde" ∧
    hasSubstr "Could not find struct Missing in crate serde" "9.9.9" = false :=
  ⟨rfl, by decide⟩

/-- Claim C7 (corrected, amended): when no strategy matches, the operation
fails with a not-found error whose message names the requested type name
and the package name (the version is logged but not part of the returned
message). -/
theorem notfound_message_names_type_and_crate
    (docs_rs_url crate_name struct_name ver b : String) (doc : Document)
    (hb : (splitSegs struct_name).getLast? = some b)
    (h1 : doc.oldAnchors.find? (anchorMatches struct_name b (modulePathOf struct_name)) = none)
    (h2 : doc.newAnchors.find? (anchorMatches struct_name b (modulePathOf struct_name)) = none) :
    resolve_in_doc docs_rs_url crate_name struct_name ver doc =
      Except.error ("Could not find struct " ++ struct_name ++ " in crate " ++ crate_name) ∧
    hasSubstr ("Could not find struct " ++ struct_name ++ " in crate " ++ crate_name)
      struct_name = true ∧
    hasSubstr ("Could not find struct " ++ struct_name ++ " in crate " ++ crate_name)
      crate_name = true := by
  refine ⟨?_, ?_, ?_⟩
  · rw [resolve_in_doc_eq docs_rs_url crate_name struct_name ver doc b hb, h1, h2]
  · rw [String.append_assoc ("Could not find struct " ++ struct_name)]
    exact hasSubstr_mid _ _ _
  · exact hasSubstr_append_right _ _

/-- Witness for the amended C7. -/
theorem notfound_message_names_type_and_crate_witness :
    resolve_in_doc "https://docs.rs" "serde" "NoSuchType" "1.0.0"
        ⟨[], [], none, [], [], [], [], []⟩
      = Except.error ("Could not find struct " ++ "NoSuchType" ++ " in crate " ++ "serde") ∧
    hasSubstr ("Could not find struct " ++ "NoSuchType" ++ " in crate " ++ "serde")
      "NoSuchType" = true ∧
    hasSubstr ("Could not find struct " ++ "NoSuchType" ++ " in crate " ++ "serde")
      "serde" = true :=
  notfound_message_names_type_and_crate "https://docs.rs" "serde" "NoSuchType" "1.0.0"
    "NoSuchType" ⟨[], [], none, [], [], [], [], []⟩ (by decide) rfl rfl

/-- Claim C9 (corrected), counterexample: a call with an empty package name
is not rejected; deserialization accepts the empty string and the operation
proceeds to fetch (here the substituted fetcher answers, and the call
succeeds). -/
theorem empty_crate_name_not_rejected_counterexample :
    struct_docs_call "https://docs.rs"
        (fun _ => .ok ⟨[⟨"Foo", "/struct.Foo.html"⟩], [], some " desc ", [],
          [some "Clone"], [], [], []⟩)
        (some (.jobj [("crate_name", .jstr ""), ("struct_name", .jstr "Foo")]))
      = Except.ok ⟨"Foo", "", "desc", [], ["Clone"], []⟩ := rfl

/-- Claim C9 (corrected, amended): a call whose input fails serde
deserialization (missing required field, wrong value type, or absent
input) fails before any fetch is attempted, for both operations; an empty
package or type name, however, deserializes fine and is not rejected. -/
theorem malformed_input_fails_before_fetch (docs_rs_url : String)
    (input input2 : Option JValue) (e e2 : String)
    (h1 : parse_struct_docs_params (input.getD .jnull) = .error e)
    (h2 : parse_crate_name_param (input2.getD .jnull) = .error e2) :
    (∀ fetch : Fetcher, struct_docs_call docs_rs_url fetch input = .error e) ∧
    (∀ fetch : CatalogFetcher, crate_items_call fetch input2 = .error e2) := by
  constructor
  · intro fetch
    unfold struct_docs_call
    rw [h1]
  · intro fetch
    unfold crate_items_call
    rw [h2]

/-- Witness for the amended C9: absent input is JSON null, which fails
deserialization for both tools whatever the fetcher would have answered. -/
theorem malformed_input_fails_before_fetch_witness :
    struct_docs_call "https://docs.rs" (fun _ => .error "never fetched") none
      = Except.error "invalid params: expected object" ∧
    crate_items_call (fun _ => .error "never fetched") none
      = Except.error "invalid params: expected object" := by
  have h := malformed_input_fails_before_fetch "https://docs.rs" none none
    "invalid params: expected object" "invalid params: expected object" rfl rfl
  exact ⟨h.1 _, h.2 _⟩

end DocsRsMcp
